import Mathlib

/-!
Verification of the sysmon-helper-cli repository.

Part A embeds the merge engine (parser/extractor, validator, merge
accumulator, canonical emitter, merge driver).  The engine itself lives in
the external sysmon_json / sysmon_validator crates, whose sources are not
part of this repository; every definition in Part A is therefore modelled
from the specification (sections 3, 4 and 6 of spec.md), as the doc
comments record.

Part B embeds the CLI layer of src/main.rs (mode dispatch, default output
paths, batch statistics handling, preprocessing error mapping), translated
directly from the Rust source.
-/

namespace SysmonHelper

/-- Modelled from the spec: boolean combination mode of a grouping element,
exactly two values, "or" and "and" (spec section 3, RuleGroup). -/
inductive GroupRelation where
  | orRel
  | andRel
deriving DecidableEq, Repr

/-- Modelled from the spec: match polarity of an event-type block,
include or exclude (spec section 3, EventTypeBlock). -/
inductive Polarity where
  | incl
  | excl
deriving DecidableEq, Repr

/-- Modelled from the spec: fixed enumeration of monitored event kinds
(spec section 3, EventTypeBlock: process creation, file creation,
network connection, etc.). -/
inductive EventKind where
  | processCreate
  | fileCreateTime
  | networkConnect
  | driverLoad
  | imageLoad
  | createRemoteThread
  | processAccess
  | fileCreate
  | registryEvent
  | pipeEvent
  | wmiEvent
  | dnsQuery
  | fileDelete
deriving DecidableEq, Repr

/-- Modelled from the spec: fixed enumeration of comparison operators
(spec section 3, RuleEntry). -/
inductive MatchOp where
  | equals
  | contains
  | excludes
  | beginsWith
  | endsWith
  | imageMatch
  | anyOf
deriving DecidableEq, Repr

/-- Modelled from the spec: one field/operator/value condition with an
optional name label; the label is metadata and does not participate in
structural equality (spec section 3, RuleEntry). -/
structure RuleEntry where
  field : String
  op : MatchOp
  value : String
  label : Option String
deriving DecidableEq, Repr

/-- Modelled from the spec: the rules governing one monitored event kind
under one match polarity (spec section 3, EventTypeBlock). -/
structure EventTypeBlock where
  kind : EventKind
  pol : Polarity
  rules : List RuleEntry
deriving DecidableEq, Repr

/-- Modelled from the spec: a named container with a boolean combination
mode holding event-type blocks (spec section 3, RuleGroup). -/
structure RuleGroup where
  name : Option String
  groupRelation : GroupRelation
  blocks : List EventTypeBlock
deriving DecidableEq, Repr

/-- Modelled from the spec: a direct child of the EventFiltering element.
A well-formed document has only rule groups here; a loose event-type
element models the structural violation "event types must be wrapped in a
RuleGroup" (spec sections 3 and 4.2). -/
inductive FilterChild where
  | ruleGroup (g : RuleGroup)
  | looseEventType (b : EventTypeBlock)
  | otherElem (tag : String)
deriving DecidableEq, Repr

/-- Modelled from the spec: a top-level child of the configuration root.
A loose event-type element here models the structural violation "rules
must be wrapped in the EventFiltering element" (spec sections 3 and 4.2). -/
inductive TopChild where
  | eventFiltering (children : List FilterChild)
  | looseEventType (b : EventTypeBlock)
  | otherElem (tag : String)
deriving DecidableEq, Repr

/-- Modelled from the spec: root configuration document with optional
schema-version attribute and its top-level children (spec section 3,
ConfigDocument). -/
structure ConfigDocument where
  schemaVersion : Option String
  topChildren : List TopChild
deriving DecidableEq, Repr

/-- Modelled from the spec: the three structural wrapper invariants the
Validator enforces (spec section 4.2). -/
inductive ViolatedInvariant where
  | rulesOutsideEventFiltering
  | eventTypeOutsideRuleGroup
  | noRuleGroupInEventFiltering
deriving DecidableEq, Repr

def TopChild.isEventFiltering : TopChild → Bool
  | .eventFiltering _ => true
  | _ => false

def TopChild.isLooseEventType : TopChild → Bool
  | .looseEventType _ => true
  | _ => false

def FilterChild.isLooseEventType : FilterChild → Bool
  | .looseEventType _ => true
  | _ => false

def FilterChild.isRuleGroup : FilterChild → Bool
  | .ruleGroup _ => true
  | _ => false

/-- Children of the EventFiltering elements of a document. -/
def eventFilteringChildren (d : ConfigDocument) : List FilterChild :=
  (d.topChildren.filterMap fun c => match c with
    | .eventFiltering cs => some cs
    | _ => none).flatten

/-- Modelled from the spec: the pure Validator, checking the three
structural invariants in order and short-circuiting on the first failure
(spec section 4.2; exposed to the CLI as validate_config, spec
section 6). -/
def validate_config (d : ConfigDocument) : Except ViolatedInvariant Unit :=
  if (d.topChildren.filter TopChild.isEventFiltering).length != 1
      || d.topChildren.any TopChild.isLooseEventType then
    .error .rulesOutsideEventFiltering
  else if (eventFilteringChildren d).any FilterChild.isLooseEventType then
    .error .eventTypeOutsideRuleGroup
  else if !(eventFilteringChildren d).any FilterChild.isRuleGroup then
    .error .noRuleGroupInEventFiltering
  else
    .ok ()

/-- Modelled from the spec: the Parser/Extractor projection of a document
onto its merge-significant content, the rule groups under EventFiltering
(spec section 4.1). -/
def extractGroups (d : ConfigDocument) : List RuleGroup :=
  (eventFilteringChildren d).filterMap fun c => match c with
    | .ruleGroup g => some g
    | _ => none

/-- Modelled from the spec: accumulator key, (event kind, polarity)
(spec section 3, MergedConfig). -/
structure Key where
  kind : EventKind
  pol : Polarity
deriving DecidableEq, Repr

/-- Structural equality of two rule entries: (field, operator, value)
tuple equality; the name label does not participate (spec section 3). -/
def sameTuple (a b : RuleEntry) : Bool :=
  a.field == b.field && a.op == b.op && a.value == b.value

/-- Append an entry unless its (field, operator, value) tuple is already
present (spec section 4.3, idempotent dedup). -/
def insertRule (rs : List RuleEntry) (e : RuleEntry) : List RuleEntry :=
  if rs.any fun x => sameTuple x e then rs else rs ++ [e]

/-- Append a relation value unless already present, preserving first-seen
order (spec sections 4.3 and 4.4). -/
def insertRel (rs : List GroupRelation) (r : GroupRelation) : List GroupRelation :=
  if rs.contains r then rs else rs ++ [r]

/-- Add one rule entry under a key in the per-key rule table, deduplicating
by (field, operator, value); unknown keys are appended in first-seen
order (spec section 4.3). -/
def addRule : List (Key × List RuleEntry) → Key → RuleEntry → List (Key × List RuleEntry)
  | [], k, e => [(k, [e])]
  | (k', rs) :: rest, k, e =>
    if k' = k then (k', insertRule rs e) :: rest
    else (k', rs) :: addRule rest k e

/-- Record one observed relation value against a key in the per-key
relation table (spec section 4.3, conflict policy). -/
def addRel : List (Key × List GroupRelation) → Key → GroupRelation → List (Key × List GroupRelation)
  | [], k, r => [(k, [r])]
  | (k', rs) :: rest, k, r =>
    if k' = k then (k', insertRel rs r) :: rest
    else (k', rs) :: addRel rest k r

/-- Modelled from the spec: the merge accumulator state, a mapping from
(event kind, polarity) keys to deduplicated rule sequences, the set of
distinct relation values observed per key, and the global first-seen
order of relation values (spec section 3, MergedConfig). -/
structure MergedConfig where
  rules : List (Key × List RuleEntry)
  rels : List (Key × List GroupRelation)
  relOrder : List GroupRelation
deriving DecidableEq, Repr

def MergedConfig.empty : MergedConfig := ⟨[], [], []⟩

/-- Modelled from the spec: folding one event-type block observed under a
grouping relation into the accumulator (spec section 4.3). -/
def foldBlock (rel : GroupRelation) (s : MergedConfig) (b : EventTypeBlock) : MergedConfig :=
  ⟨b.rules.foldl (fun rs e => addRule rs ⟨b.kind, b.pol⟩ e) s.rules,
   addRel s.rels ⟨b.kind, b.pol⟩ rel,
   insertRel s.relOrder rel⟩

/-- Modelled from the spec: folding one rule group (spec section 4.3). -/
def foldGroup (s : MergedConfig) (g : RuleGroup) : MergedConfig :=
  g.blocks.foldl (foldBlock g.groupRelation) s

/-- Modelled from the spec: folding one extracted fragment, a list of rule
groups (spec section 4.3, fold). -/
def foldFragment (s : MergedConfig) (f : List RuleGroup) : MergedConfig :=
  f.foldl foldGroup s

/-- Modelled from the spec: folding a whole fragment sequence starting
from the empty accumulator (spec sections 4.3 and 4.5). -/
def mergeFold (fs : List (List RuleGroup)) : MergedConfig :=
  fs.foldl foldFragment .empty

/-- First-match lookup of the rule list recorded under a key. -/
def lookupRules : List (Key × List RuleEntry) → Key → List RuleEntry
  | [], _ => []
  | (k', rs) :: rest, k => if k' = k then rs else lookupRules rest k

/-- First-match lookup of the relation values recorded under a key. -/
def lookupRels : List (Key × List GroupRelation) → Key → List GroupRelation
  | [], _ => []
  | (k', rs) :: rest, k => if k' = k then rs else lookupRels rest k

/-- Whether an entry with the given (field, operator, value) tuple is
already retained under a key. -/
def hasRuleTuple (rs : List (Key × List RuleEntry)) (k : Key) (e : RuleEntry) : Bool :=
  (lookupRules rs k).any fun x => sameTuple x e

/-- Whether a relation value has been observed against a key. -/
def hasRel (rs : List (Key × List GroupRelation)) (k : Key) (r : GroupRelation) : Bool :=
  (lookupRels rs k).contains r

/-- Modelled from the spec: the event-type blocks the Canonical Emitter
places inside the group for a given relation value: one block per key that
observed that value, keys in first-seen order, entries in first-seen
order (spec section 4.4). -/
def emitBlocks (s : MergedConfig) (r : GroupRelation) : List EventTypeBlock :=
  s.rules.filterMap fun p =>
    if hasRel s.rels p.1 r then some ⟨p.1.kind, p.1.pol, p.2⟩ else none

/-- Modelled from the spec: the Canonical Emitter, producing one document
with a single EventFiltering element holding one RuleGroup per distinct
relation value in first-observed order (spec section 4.4). -/
def emit (s : MergedConfig) : ConfigDocument :=
  ⟨none, [.eventFiltering (s.relOrder.map fun r => .ruleGroup ⟨none, r, emitBlocks s r⟩)]⟩

/-- Modelled from the spec: errors of the Merge Driver (spec sections 4.5
and 7). -/
inductive MergeError where
  | noInputConfigs
  | invalidFragment (idx : Nat) (v : ViolatedInvariant)
  | mergeProducedInvalidOutput (v : ViolatedInvariant)
deriving DecidableEq, Repr

/-- First structurally invalid document in discovery order, with its index
and the violated invariant (spec section 4.5). -/
def findInvalid (i : Nat) : List ConfigDocument → Option (Nat × ViolatedInvariant)
  | [] => none
  | d :: rest =>
    match validate_config d with
    | .error v => some (i, v)
    | .ok _ => findInvalid (i + 1) rest

/-- Modelled from the spec: the Merge Driver over the ordered list of
discovered fragment documents (directory walking and lexicographic path
sorting are abstracted into the list order).  It fails on zero inputs,
aborts on the first structurally invalid fragment, folds the valid
fragments, emits, and re-validates the emitted document, reporting a
post-merge validation failure as a distinct internal-invariant error
(spec sections 4.5, 6 and 7). -/
def merge_configs (docs : List ConfigDocument) : Except MergeError ConfigDocument :=
  if docs.isEmpty then .error .noInputConfigs
  else
    match findInvalid 0 docs with
    | some (i, v) => .error (.invalidFragment i v)
    | none =>
      match validate_config (emit (mergeFold (docs.map extractGroups))) with
      | .error v => .error (.mergeProducedInvalidOutput v)
      | .ok _ => .ok (emit (mergeFold (docs.map extractGroups)))

/-!
Part B: the CLI layer of src/main.rs.  Paths are modelled at the
granularity of the std::path API operations the source uses: a directory
prefix, an optional file-name stem and an optional extension.
-/

/-- Model of std::path::PathBuf as used by main.rs: directory components,
optional file-name stem, optional extension. -/
structure Path where
  dir : List String
  stem : Option String
  ext : Option String
deriving DecidableEq, Repr

/-- Path::extension — the extension of the file name, none when the path
has no file name. -/
def Path.extension (p : Path) : Option String :=
  match p.stem with
  | none => none
  | some _ => p.ext

/-- PathBuf::set_extension — replaces (or adds) the extension; a path
without a file name is left unchanged. -/
def Path.setExtension (p : Path) (e : String) : Path :=
  match p.stem with
  | none => p
  | some st => ⟨p.dir, some st, some e⟩

/-- Rendering of a file name from stem and extension. -/
def Path.compString (stem : String) (ext : Option String) : String :=
  match ext with
  | none => stem
  | some e => stem ++ "." ++ e

/-- Path::join with a file name given as stem and extension: the current
file name, if any, becomes a directory component. -/
def Path.join (p : Path) (stem : String) (ext : Option String) : Path :=
  match p.stem with
  | none => ⟨p.dir, some stem, ext⟩
  | some st => ⟨p.dir ++ [Path.compString st p.ext], some stem, ext⟩

/-- ConversionError variants of the sysmon_json crate that main.rs
constructs (src/main.rs lines 100, 122, 146, 220, 250-269). -/
inductive ConversionError where
  | ioError (path : Path) (msg : String)
  | xmlParse (msg : String)
  | validationError (msg : String)
  | invalidFile (msg : String)
  | parserError (msg : String)
deriving DecidableEq, Repr

/-- Constructor index, used to state that two errors are of distinct
variants. -/
def ConversionError.ctorIdx : ConversionError → Nat
  | .ioError _ _ => 0
  | .xmlParse _ => 1
  | .validationError _ => 2
  | .invalidFile _ => 3
  | .parserError _ => 4

/-- PreprocessError variants of the sysmon_json preprocessor that main.rs
matches on (src/main.rs lines 249-270). -/
inductive PreprocessError where
  | ioError (msg : String)
  | xmlError (msg : String)
  | validationError (msg : String)
  | pathError (msg : String)
  | parserError (msg : String)
deriving DecidableEq, Repr

/-- Error mapping of handle_single_file (src/main.rs lines 248-271):
each PreprocessError variant is converted to a ConversionError variant. -/
def mapPreprocessError (input : Path) (e : PreprocessError) : ConversionError :=
  match e with
  | .ioError m => .ioError input m
  | .xmlError m => .xmlParse m
  | .validationError m => .validationError m
  | .pathError m => .invalidFile m
  | .parserError m => .parserError m

/-- Batch statistics returned by BatchProcessor::process_directory
(src/main.rs lines 166-175, spec section 6). -/
structure BatchProcessingStats where
  processed : Nat
  errors : Nat
deriving DecidableEq, Repr

/-- Exit behaviour of main (src/main.rs lines 73-80): process::exit(1) on
error, implicit exit 0 otherwise. -/
def exitCode {α : Type} (r : Except ConversionError α) : Nat :=
  match r with
  | .error _ => 1
  | .ok _ => 0

/-- Arguments of a merge_configs call issued by the CLI. -/
structure MergeInvocation where
  input : Path
  output : Path
  recursive : Bool
deriving DecidableEq, Repr

/-- handle_merge_mode (src/main.rs lines 120-142): requires a directory
input, defaults the output to input/merged.xml, and passes input and the
recursive flag through to merge_configs.  The file-system call
merge_configs is abstracted into the returned invocation record. -/
def handle_merge_mode (input : Path) (inputIsDir : Bool) (output : Option Path)
    (recursive : Bool) : Except ConversionError MergeInvocation :=
  if !inputIsDir then
    .error (.invalidFile "Merge mode requires input to be a directory")
  else
    .ok ⟨input, output.getD (Path.join input "merged" (some "xml")), recursive⟩

/-- handle_batch_mode (src/main.rs lines 144-178): requires a directory
input; when the processor returns statistics it only logs a warning when
stats.errors > 0 (the returned Bool records whether the warning was
logged) and returns Ok; a processor error is propagated. -/
def handle_batch_mode (inputIsDir : Bool)
    (procResult : Except ConversionError BatchProcessingStats) :
    Except ConversionError Bool :=
  if !inputIsDir then
    .error (.invalidFile "Batch mode requires input to be a directory")
  else
    match procResult with
    | .error e => .error e
    | .ok stats => .ok (decide (stats.errors > 0))

/-- Default output path of handle_single_file (src/main.rs lines 205-214):
extension json when the input extension equals "xml", extension xml
otherwise. -/
def defaultSingleOutput (input : Path) : Path :=
  input.setExtension (if input.extension == some "xml" then "json" else "xml")

/-- Decidable equality for Except, used to evaluate handler results on
concrete inputs. -/
def exceptDecEq {ε α : Type} [DecidableEq ε] [DecidableEq α] :
    DecidableEq (Except ε α) := fun a b =>
  match a, b with
  | .error e, .error f =>
    if h : e = f then .isTrue (congrArg Except.error h)
    else .isFalse fun hc => h (Except.error.inj hc)
  | .ok x, .ok y =>
    if h : x = y then .isTrue (congrArg Except.ok h)
    else .isFalse fun hc => h (Except.ok.inj hc)
  | .error _, .ok _ => .isFalse fun hc => Except.noConfusion hc
  | .ok _, .error _ => .isFalse fun hc => Except.noConfusion hc

instance {ε α : Type} [DecidableEq ε] [DecidableEq α] : DecidableEq (Except ε α) :=
  exceptDecEq

/-- External effects observed by handle_single_file: the result of
preprocess_config on the input and the fresh temporary directory. -/
structure SingleFileEnv where
  preprocessResult : Except PreprocessError String
  tempDir : Path
deriving DecidableEq, Repr

/-- The path handed to convert_file: either a temporary file holding the
preprocessed content, or the raw input path. -/
inductive ConvertSource where
  | preprocessedTemp (path : Path) (content : String)
  | rawInput (path : Path)
deriving DecidableEq, Repr

/-- Which source handle_single_file passes to convert_file
(src/main.rs lines 223-280): without skip_preprocessing, the temporary
file temp_dir/input-file-name holding the output of preprocess_config
(none when preprocessing failed); with skip_preprocessing, the raw input
path. -/
def singleFileConvertSource (skipPreprocessing : Bool) (input : Path)
    (env : SingleFileEnv) : Option ConvertSource :=
  if !skipPreprocessing then
    match env.preprocessResult with
    | .ok content =>
      some (.preprocessedTemp (Path.join env.tempDir (input.stem.getD "") input.ext) content)
    | .error _ => none
  else
    some (.rawInput input)

/-- Result of handle_single_file (src/main.rs lines 204-284), with the
convert_file outcome supplied as an abstract result: a preprocessing
failure is mapped through mapPreprocessError, otherwise the conversion
result is returned. -/
def handle_single_file (skipPreprocessing : Bool) (input : Path) (env : SingleFileEnv)
    (convertResult : Except ConversionError Unit) : Except ConversionError Unit :=
  if !skipPreprocessing then
    match env.preprocessResult with
    | .ok _ => convertResult
    | .error e => .error (mapPreprocessError input e)
  else
    convertResult

/-- try_main dispatch (src/main.rs lines 82-118): missing input is an
InvalidFile error, then merge mode, then batch mode (explicit flag or
directory input), then single-file mode; each handler result is
propagated. -/
def try_main (inputExists inputIsDir mergeFlag batchFlag : Bool)
    (mergeRes : Except ConversionError MergeInvocation)
    (batchRes : Except ConversionError Bool)
    (singleRes : Except ConversionError Unit) : Except ConversionError Unit :=
  if !inputExists then
    .error (.invalidFile "Input path does not exist")
  else if mergeFlag then
    mergeRes.map fun _ => ()
  else if batchFlag || inputIsDir then
    batchRes.map fun _ => ()
  else
    singleRes

/-!
Remaining definitions: the absorption predicate driving the idempotence
proofs, and concrete sample documents used to evaluate the theorems.
-/

/-- A fragment is absorbed in an accumulator state when every relation it
observes and every entry tuple it carries are already recorded. -/
def Absorbed (f : List RuleGroup) (s : MergedConfig) : Prop :=
  ∀ g ∈ f, ∀ b ∈ g.blocks,
    s.relOrder.contains g.groupRelation = true ∧
    hasRel s.rels ⟨b.kind, b.pol⟩ g.groupRelation = true ∧
    ∀ e ∈ b.rules, hasRuleTuple s.rules ⟨b.kind, b.pol⟩ e = true

/-- Sample rule entry (spec section 8, concrete scenario). -/
def sampleEntry : RuleEntry := ⟨"Image", .equals, "cmd.exe", none⟩

/-- Sample event-type block holding sampleEntry. -/
def sampleBlock : EventTypeBlock := ⟨.processCreate, .incl, [sampleEntry]⟩

/-- Sample structurally valid document: one EventFiltering element with one
rule group holding sampleBlock. -/
def sampleDoc : ConfigDocument :=
  ⟨none, [.eventFiltering [.ruleGroup ⟨none, .orRel, [sampleBlock]⟩]]⟩

/-- Structurally valid document whose only rule group carries no
event-type block. -/
def emptyGroupDoc : ConfigDocument :=
  ⟨none, [.eventFiltering [.ruleGroup ⟨none, .orRel, []⟩]]⟩

/-- Document violating invariant 1: an event-type element with rules sits
outside any EventFiltering element. -/
def violRulesOutside : ConfigDocument := ⟨none, [.looseEventType sampleBlock]⟩

/-- Document violating invariant 2: an event-type element is a direct
child of EventFiltering instead of a RuleGroup. -/
def violEventTypeOutside : ConfigDocument :=
  ⟨none, [.eventFiltering [.looseEventType sampleBlock]]⟩

/-- Document violating invariant 3: EventFiltering contains no RuleGroup. -/
def violNoRuleGroup : ConfigDocument := ⟨none, [.eventFiltering [.otherElem "X"]]⟩

/-!
Generic fold invariants.
-/

/-- A property preserved by each step of a left fold holds of the fold. -/
theorem foldlPreserve {α σ : Type} (P : σ → Prop) (f : σ → α → σ)
    (h : ∀ s a, P s → P (f s a)) (l : List α) :
    ∀ s : σ, P s → P (l.foldl f s) := by
  induction l with
  | nil => intro s hs; exact hs
  | cons a l ih => intro s hs; exact ih (f s a) (h s a hs)

/-- A property established by folding a given list element and preserved by
every step holds of any fold over a list containing that element. -/
theorem foldlAttain {α σ : Type} (P : σ → Prop) (f : σ → α → σ)
    (h : ∀ s a, P s → P (f s a)) (a : α) (hest : ∀ s, P (f s a)) :
    ∀ (l : List α), a ∈ l → ∀ s : σ, P (l.foldl f s) := by
  intro l
  induction l with
  | nil => intro ha; cases ha
  | cons b l ih =>
    intro ha s
    rcases List.mem_cons.mp ha with h1 | h2
    · subst h1; exact foldlPreserve P f h l (f s a) (hest s)
    · exact ih h2 (f s b)

/-!
Basic accumulator lemmas: insertRule, insertRel, addRule, addRel.
-/

theorem containsIffMem {α : Type} [DecidableEq α] {l : List α} {a : α} :
    l.contains a = true ↔ a ∈ l := by
  simp [List.contains, List.elem_iff]

theorem sameTuple_refl (e : RuleEntry) : sameTuple e e = true := by
  simp [sameTuple]

theorem insertRule_absorbed {rs : List RuleEntry} {e : RuleEntry}
    (h : (rs.any fun x => sameTuple x e) = true) : insertRule rs e = rs := by
  simp [insertRule, h]

theorem any_insertRule_mono {rs : List RuleEntry} {e e' : RuleEntry}
    (h : (rs.any fun x => sameTuple x e) = true) :
    ((insertRule rs e').any fun x => sameTuple x e) = true := by
  unfold insertRule
  split
  · exact h
  · simp only [List.any_append, h, Bool.true_or]

theorem any_insertRule_self (rs : List RuleEntry) (e : RuleEntry) :
    ((insertRule rs e).any fun x => sameTuple x e) = true := by
  unfold insertRule
  split
  · assumption
  · simp [sameTuple_refl]

theorem insertRel_absorbed {rs : List GroupRelation} {r : GroupRelation}
    (h : rs.contains r = true) : insertRel rs r = rs := by
  unfold insertRel
  rw [if_pos h]

theorem contains_insertRel_mono {rs : List GroupRelation} {r r' : GroupRelation}
    (h : rs.contains r = true) : (insertRel rs r').contains r = true := by
  unfold insertRel
  split
  · exact h
  · have hm : r ∈ rs := containsIffMem.mp h
    exact containsIffMem.mpr (List.mem_append_left _ hm)

theorem contains_insertRel_self (rs : List GroupRelation) (r : GroupRelation) :
    (insertRel rs r).contains r = true := by
  unfold insertRel
  split
  · assumption
  · exact containsIffMem.mpr (by simp)

theorem insertRel_ne_nil (rs : List GroupRelation) (r : GroupRelation) :
    insertRel rs r ≠ [] := by
  unfold insertRel
  split
  · next hcon =>
    intro hc
    subst hc
    simp at hcon
  · simp

theorem addRule_absorbed {rs : List (Key × List RuleEntry)} {k : Key} {e : RuleEntry}
    (h : hasRuleTuple rs k e = true) : addRule rs k e = rs := by
  induction rs with
  | nil => simp [hasRuleTuple, lookupRules] at h
  | cons p rest ih =>
    obtain ⟨k', rs'⟩ := p
    unfold hasRuleTuple lookupRules at h
    unfold addRule
    by_cases hk : k' = k
    · rw [if_pos hk] at h ⊢
      rw [insertRule_absorbed h]
    · rw [if_neg hk] at h ⊢
      rw [ih h]

theorem hasRuleTuple_addRule_mono {rs : List (Key × List RuleEntry)} {k : Key}
    {e : RuleEntry} (k' : Key) (e' : RuleEntry)
    (h : hasRuleTuple rs k e = true) :
    hasRuleTuple (addRule rs k' e') k e = true := by
  induction rs with
  | nil => simp [hasRuleTuple, lookupRules] at h
  | cons p rest ih =>
    obtain ⟨k₀, rs₀⟩ := p
    unfold hasRuleTuple lookupRules at h
    unfold addRule
    by_cases hk : k₀ = k'
    · rw [if_pos hk]
      unfold hasRuleTuple lookupRules
      by_cases hkk : k₀ = k
      · rw [if_pos hkk] at h ⊢
        exact any_insertRule_mono h
      · rw [if_neg hkk] at h ⊢
        exact h
    · rw [if_neg hk]
      unfold hasRuleTuple lookupRules
      by_cases hkk : k₀ = k
      · rw [if_pos hkk] at h ⊢
        exact h
      · rw [if_neg hkk] at h ⊢
        exact ih h

theorem hasRuleTuple_addRule_self (rs : List (Key × List RuleEntry)) (k : Key)
    (e : RuleEntry) : hasRuleTuple (addRule rs k e) k e = true := by
  induction rs with
  | nil =>
    simp [addRule, hasRuleTuple, lookupRules, sameTuple_refl]
  | cons p rest ih =>
    obtain ⟨k₀, rs₀⟩ := p
    unfold addRule
    by_cases hk : k₀ = k
    · rw [if_pos hk]
      unfold hasRuleTuple lookupRules
      rw [if_pos hk]
      exact any_insertRule_self rs₀ e
    · rw [if_neg hk]
      unfold hasRuleTuple lookupRules
      rw [if_neg hk]
      exact ih

theorem addRel_absorbed {rs : List (Key × List GroupRelation)} {k : Key}
    {r : GroupRelation} (h : hasRel rs k r = true) : addRel rs k r = rs := by
  induction rs with
  | nil => simp [hasRel, lookupRels] at h
  | cons p rest ih =>
    obtain ⟨k', rs'⟩ := p
    unfold hasRel lookupRels at h
    unfold addRel
    by_cases hk : k' = k
    · rw [if_pos hk] at h ⊢
      rw [insertRel_absorbed h]
    · rw [if_neg hk] at h ⊢
      rw [ih h]

theorem hasRel_addRel_mono {rs : List (Key × List GroupRelation)} {k : Key}
    {r : GroupRelation} (k' : Key) (r' : GroupRelation)
    (h : hasRel rs k r = true) : hasRel (addRel rs k' r') k r = true := by
  induction rs with
  | nil => simp [hasRel, lookupRels] at h
  | cons p rest ih =>
    obtain ⟨k₀, rs₀⟩ := p
    unfold hasRel lookupRels at h
    unfold addRel
    by_cases hk : k₀ = k'
    · rw [if_pos hk]
      unfold hasRel lookupRels
      by_cases hkk : k₀ = k
      · rw [if_pos hkk] at h ⊢
        exact contains_insertRel_mono h
      · rw [if_neg hkk] at h ⊢
        exact h
    · rw [if_neg hk]
      unfold hasRel lookupRels
      by_cases hkk : k₀ = k
      · rw [if_pos hkk] at h ⊢
        exact h
      · rw [if_neg hkk] at h ⊢
        exact ih h

theorem hasRel_addRel_self (rs : List (Key × List GroupRelation)) (k : Key)
    (r : GroupRelation) : hasRel (addRel rs k r) k r = true := by
  induction rs with
  | nil =>
    simp [addRel, hasRel, lookupRels]
  | cons p rest ih =>
    obtain ⟨k₀, rs₀⟩ := p
    unfold addRel
    by_cases hk : k₀ = k
    · rw [if_pos hk]
      unfold hasRel lookupRels
      rw [if_pos hk]
      exact contains_insertRel_self rs₀ r
    · rw [if_neg hk]
      unfold hasRel lookupRels
      rw [if_neg hk]
      exact ih

/-!
Preservation of recorded facts through the merge fold.
-/

theorem rule_pres_foldBlock {s : MergedConfig} {k : Key} {e : RuleEntry}
    (r : GroupRelation) (b : EventTypeBlock) (h : hasRuleTuple s.rules k e = true) :
    hasRuleTuple (foldBlock r s b).rules k e = true := by
  show hasRuleTuple
    (b.rules.foldl (fun rs e' => addRule rs ⟨b.kind, b.pol⟩ e') s.rules) k e = true
  exact foldlPreserve (fun rs => hasRuleTuple rs k e = true)
    (fun rs e' => addRule rs ⟨b.kind, b.pol⟩ e')
    (fun rs e' hh => hasRuleTuple_addRule_mono _ _ hh) b.rules s.rules h

theorem rel_pres_foldBlock {s : MergedConfig} {k : Key} {r' : GroupRelation}
    (r : GroupRelation) (b : EventTypeBlock) (h : hasRel s.rels k r' = true) :
    hasRel (foldBlock r s b).rels k r' = true :=
  hasRel_addRel_mono _ _ h

theorem relOrder_pres_foldBlock {s : MergedConfig} {r' : GroupRelation}
    (r : GroupRelation) (b : EventTypeBlock) (h : s.relOrder.contains r' = true) :
    (foldBlock r s b).relOrder.contains r' = true :=
  contains_insertRel_mono h

theorem rule_pres_foldGroup {s : MergedConfig} {k : Key} {e : RuleEntry}
    (g : RuleGroup) (h : hasRuleTuple s.rules k e = true) :
    hasRuleTuple (foldGroup s g).rules k e = true :=
  foldlPreserve (fun s' => hasRuleTuple s'.rules k e = true)
    (foldBlock g.groupRelation)
    (fun _ b hh => rule_pres_foldBlock _ b hh) g.blocks s h

theorem rel_pres_foldGroup {s : MergedConfig} {k : Key} {r' : GroupRelation}
    (g : RuleGroup) (h : hasRel s.rels k r' = true) :
    hasRel (foldGroup s g).rels k r' = true :=
  foldlPreserve (fun s' => hasRel s'.rels k r' = true)
    (foldBlock g.groupRelation)
    (fun _ b hh => rel_pres_foldBlock _ b hh) g.blocks s h

theorem relOrder_pres_foldGroup {s : MergedConfig} {r' : GroupRelation}
    (g : RuleGroup) (h : s.relOrder.contains r' = true) :
    (foldGroup s g).relOrder.contains r' = true :=
  foldlPreserve (fun s' => s'.relOrder.contains r' = true)
    (foldBlock g.groupRelation)
    (fun _ b hh => relOrder_pres_foldBlock _ b hh) g.blocks s h

theorem rule_pres_foldFragment {s : MergedConfig} {k : Key} {e : RuleEntry}
    (f : List RuleGroup) (h : hasRuleTuple s.rules k e = true) :
    hasRuleTuple (foldFragment s f).rules k e = true :=
  foldlPreserve (fun s' => hasRuleTuple s'.rules k e = true) foldGroup
    (fun _ g hh => rule_pres_foldGroup g hh) f s h

theorem rel_pres_foldFragment {s : MergedConfig} {k : Key} {r' : GroupRelation}
    (f : List RuleGroup) (h : hasRel s.rels k r' = true) :
    hasRel (foldFragment s f).rels k r' = true :=
  foldlPreserve (fun s' => hasRel s'.rels k r' = true) foldGroup
    (fun _ g hh => rel_pres_foldGroup g hh) f s h

theorem relOrder_pres_foldFragment {s : MergedConfig} {r' : GroupRelation}
    (f : List RuleGroup) (h : s.relOrder.contains r' = true) :
    (foldFragment s f).relOrder.contains r' = true :=
  foldlPreserve (fun s' => s'.relOrder.contains r' = true) foldGroup
    (fun _ g hh => relOrder_pres_foldGroup g hh) f s h

/-!
Attainment: folding a fragment records all of its content.
-/

theorem rule_attain_foldBlock {e : RuleEntry} (r : GroupRelation)
    {b : EventTypeBlock} (he : e ∈ b.rules) (s : MergedConfig) :
    hasRuleTuple (foldBlock r s b).rules ⟨b.kind, b.pol⟩ e = true := by
  show hasRuleTuple
    (b.rules.foldl (fun rs e' => addRule rs ⟨b.kind, b.pol⟩ e') s.rules) ⟨b.kind, b.pol⟩ e = true
  exact foldlAttain (fun rs => hasRuleTuple rs ⟨b.kind, b.pol⟩ e = true)
    (fun rs e' => addRule rs ⟨b.kind, b.pol⟩ e')
    (fun rs e' hh => hasRuleTuple_addRule_mono _ _ hh) e
    (fun rs => hasRuleTuple_addRule_self rs _ e) b.rules he s.rules

theorem rel_attain_foldBlock (r : GroupRelation) (b : EventTypeBlock)
    (s : MergedConfig) : hasRel (foldBlock r s b).rels ⟨b.kind, b.pol⟩ r = true :=
  hasRel_addRel_self _ _ _

theorem relOrder_attain_foldBlock (r : GroupRelation) (b : EventTypeBlock)
    (s : MergedConfig) : (foldBlock r s b).relOrder.contains r = true :=
  contains_insertRel_self _ _

theorem rule_attain_foldGroup {e : RuleEntry} {g : RuleGroup} {b : EventTypeBlock}
    (hb : b ∈ g.blocks) (he : e ∈ b.rules) (s : MergedConfig) :
    hasRuleTuple (foldGroup s g).rules ⟨b.kind, b.pol⟩ e = true :=
  foldlAttain (fun s' => hasRuleTuple s'.rules ⟨b.kind, b.pol⟩ e = true)
    (foldBlock g.groupRelation)
    (fun _ b' hh => rule_pres_foldBlock _ b' hh) b
    (fun s' => rule_attain_foldBlock _ he s') g.blocks hb s

theorem rel_attain_foldGroup {g : RuleGroup} {b : EventTypeBlock}
    (hb : b ∈ g.blocks) (s : MergedConfig) :
    hasRel (foldGroup s g).rels ⟨b.kind, b.pol⟩ g.groupRelation = true :=
  foldlAttain (fun s' => hasRel s'.rels ⟨b.kind, b.pol⟩ g.groupRelation = true)
    (foldBlock g.groupRelation)
    (fun _ b' hh => rel_pres_foldBlock _ b' hh) b
    (fun s' => rel_attain_foldBlock _ b s') g.blocks hb s

theorem relOrder_attain_foldGroup {g : RuleGroup} {b : EventTypeBlock}
    (hb : b ∈ g.blocks) (s : MergedConfig) :
    (foldGroup s g).relOrder.contains g.groupRelation = true :=
  foldlAttain (fun s' => s'.relOrder.contains g.groupRelation = true)
    (foldBlock g.groupRelation)
    (fun _ b' hh => relOrder_pres_foldBlock _ b' hh) b
    (fun s' => relOrder_attain_foldBlock _ b s') g.blocks hb s

/-- Folding a fragment absorbs it. -/
theorem absorbed_foldFragment (f : List RuleGroup) (s : MergedConfig) :
    Absorbed f (foldFragment s f) := by
  intro g hg b hb
  refine ⟨?_, ?_, ?_⟩
  · exact foldlAttain (fun s' => s'.relOrder.contains g.groupRelation = true)
      foldGroup (fun _ g' hh => relOrder_pres_foldGroup g' hh) g
      (fun s' => relOrder_attain_foldGroup hb s') f hg s
  · exact foldlAttain (fun s' => hasRel s'.rels ⟨b.kind, b.pol⟩ g.groupRelation = true)
      foldGroup (fun _ g' hh => rel_pres_foldGroup g' hh) g
      (fun s' => rel_attain_foldGroup hb s') f hg s
  · intro e he
    exact foldlAttain (fun s' => hasRuleTuple s'.rules ⟨b.kind, b.pol⟩ e = true)
      foldGroup (fun _ g' hh => rule_pres_foldGroup g' hh) g
      (fun s' => rule_attain_foldGroup hb he s') f hg s

/-- Absorption persists under folding further fragments. -/
theorem absorbed_pres {f : List RuleGroup} {s : MergedConfig}
    (h : Absorbed f s) (f' : List RuleGroup) : Absorbed f (foldFragment s f') := by
  intro g hg b hb
  obtain ⟨h1, h2, h3⟩ := h g hg b hb
  exact ⟨relOrder_pres_foldFragment f' h1, rel_pres_foldFragment f' h2,
    fun e he => rule_pres_foldFragment f' (h3 e he)⟩

/-- Every fragment of a merged set is absorbed in the merge result. -/
theorem absorbed_mergeFold {fs : List (List RuleGroup)} {f : List RuleGroup}
    (hf : f ∈ fs) : Absorbed f (mergeFold fs) :=
  foldlAttain (Absorbed f) foldFragment
    (fun _ f' hh => absorbed_pres hh f') f
    (fun s => absorbed_foldFragment f s) fs hf MergedConfig.empty

/-!
Identity: folding absorbed content leaves the accumulator unchanged.
-/

theorem foldl_addRule_id {k : Key} {rs : List (Key × List RuleEntry)} :
    ∀ es : List RuleEntry, (∀ e ∈ es, hasRuleTuple rs k e = true) →
      es.foldl (fun rs' e => addRule rs' k e) rs = rs := by
  intro es
  induction es with
  | nil => intro _; rfl
  | cons e es ih =>
    intro h
    rw [List.foldl_cons, addRule_absorbed (h e (by simp))]
    exact ih fun e' he' => h e' (by simp [he'])

theorem foldBlock_id {r : GroupRelation} {s : MergedConfig} {b : EventTypeBlock}
    (h1 : s.relOrder.contains r = true)
    (h2 : hasRel s.rels ⟨b.kind, b.pol⟩ r = true)
    (h3 : ∀ e ∈ b.rules, hasRuleTuple s.rules ⟨b.kind, b.pol⟩ e = true) :
    foldBlock r s b = s := by
  unfold foldBlock
  rw [foldl_addRule_id b.rules h3, addRel_absorbed h2, insertRel_absorbed h1]

theorem foldl_foldBlock_id {r : GroupRelation} {s : MergedConfig} :
    ∀ bs : List EventTypeBlock,
      (∀ b ∈ bs,
        s.relOrder.contains r = true ∧
        hasRel s.rels ⟨b.kind, b.pol⟩ r = true ∧
        ∀ e ∈ b.rules, hasRuleTuple s.rules ⟨b.kind, b.pol⟩ e = true) →
      bs.foldl (foldBlock r) s = s := by
  intro bs
  induction bs with
  | nil => intro _; rfl
  | cons b bs ih =>
    intro h
    obtain ⟨h1, h2, h3⟩ := h b (by simp)
    rw [List.foldl_cons, foldBlock_id h1 h2 h3]
    exact ih fun b' hb' => h b' (by simp [hb'])

theorem foldGroup_id {s : MergedConfig} {g : RuleGroup}
    (h : ∀ b ∈ g.blocks,
      s.relOrder.contains g.groupRelation = true ∧
      hasRel s.rels ⟨b.kind, b.pol⟩ g.groupRelation = true ∧
      ∀ e ∈ b.rules, hasRuleTuple s.rules ⟨b.kind, b.pol⟩ e = true) :
    foldGroup s g = s :=
  foldl_foldBlock_id g.blocks h

theorem foldl_foldGroup_id {s : MergedConfig} :
    ∀ f : List RuleGroup, Absorbed f s → f.foldl foldGroup s = s := by
  intro f
  induction f with
  | nil => intro _; rfl
  | cons g f' ih =>
    intro h
    rw [List.foldl_cons, foldGroup_id fun b hb => h g (by simp) b hb]
    exact ih fun g' hg' b hb => h g' (by simp [hg']) b hb

theorem foldFragment_id {s : MergedConfig} {f : List RuleGroup}
    (h : Absorbed f s) : foldFragment s f = s :=
  foldl_foldGroup_id f h

theorem foldl_foldFragment_id {s : MergedConfig} :
    ∀ fs : List (List RuleGroup), (∀ f ∈ fs, Absorbed f s) →
      fs.foldl foldFragment s = s := by
  intro fs
  induction fs with
  | nil => intro _; rfl
  | cons f fs ih =>
    intro h
    rw [List.foldl_cons, foldFragment_id (h f (by simp))]
    exact ih fun f' hf' => h f' (by simp [hf'])

/-!
Uniqueness of keys in the accumulator rule table.
-/

theorem addRule_keys (rs : List (Key × List RuleEntry)) (k : Key) (e : RuleEntry) :
    (addRule rs k e).map Prod.fst =
      if k ∈ rs.map Prod.fst then rs.map Prod.fst else rs.map Prod.fst ++ [k] := by
  induction rs with
  | nil => simp [addRule]
  | cons p rest ih =>
    obtain ⟨k₀, v⟩ := p
    unfold addRule
    by_cases hk : k₀ = k
    · subst hk
      rw [if_pos rfl]
      simp
    · rw [if_neg hk, List.map_cons, List.map_cons, ih]
      by_cases hm : k ∈ rest.map Prod.fst
      · rw [if_pos hm, if_pos (by simp [hm])]
      · rw [if_neg hm, if_neg (by simp [hm]; exact fun h => hk h.symm)]
        simp

theorem addRule_keys_nodup {rs : List (Key × List RuleEntry)} (k : Key) (e : RuleEntry)
    (h : (rs.map Prod.fst).Nodup) : ((addRule rs k e).map Prod.fst).Nodup := by
  rw [addRule_keys]
  by_cases hm : k ∈ rs.map Prod.fst
  · rw [if_pos hm]; exact h
  · rw [if_neg hm]
    rw [List.nodup_append]
    refine ⟨h, List.nodup_singleton k, ?_⟩
    intro a ha hak
    rw [List.mem_singleton] at hak
    subst hak
    exact hm ha

theorem rules_keys_nodup_foldBlock {s : MergedConfig}
    (r : GroupRelation) (b : EventTypeBlock) (h : (s.rules.map Prod.fst).Nodup) :
    ((foldBlock r s b).rules.map Prod.fst).Nodup := by
  show ((b.rules.foldl (fun rs e' => addRule rs ⟨b.kind, b.pol⟩ e') s.rules).map Prod.fst).Nodup
  exact foldlPreserve (fun rs => (rs.map Prod.fst).Nodup)
    (fun rs e' => addRule rs ⟨b.kind, b.pol⟩ e')
    (fun rs e' hh => addRule_keys_nodup _ e' hh) b.rules s.rules h

theorem rules_keys_nodup_mergeFold (fs : List (List RuleGroup)) :
    (((mergeFold fs).rules).map Prod.fst).Nodup := by
  have hstep : ∀ (s : MergedConfig) (f : List RuleGroup),
      (s.rules.map Prod.fst).Nodup → ((foldFragment s f).rules.map Prod.fst).Nodup := by
    intro s f hs
    exact foldlPreserve (fun s' => (s'.rules.map Prod.fst).Nodup) foldGroup
      (fun s' g hh =>
        foldlPreserve (fun s'' => (s''.rules.map Prod.fst).Nodup)
          (foldBlock g.groupRelation)
          (fun s'' b hb => rules_keys_nodup_foldBlock _ b hb) g.blocks s' hh)
      f s hs
  exact foldlPreserve (fun s => (s.rules.map Prod.fst).Nodup) foldFragment
    hstep fs MergedConfig.empty List.nodup_nil

theorem lookupRules_mem {rs : List (Key × List RuleEntry)}
    (h : (rs.map Prod.fst).Nodup) {k : Key} {v : List RuleEntry}
    (hm : (k, v) ∈ rs) : lookupRules rs k = v := by
  induction rs with
  | nil => cases hm
  | cons p rest ih =>
    obtain ⟨k₀, v₀⟩ := p
    rw [List.map_cons, List.nodup_cons] at h
    unfold lookupRules
    rcases List.mem_cons.mp hm with h1 | h2
    · cases h1
      rw [if_pos rfl]
    · by_cases hk : k₀ = k
      · exfalso
        apply h.1
        rw [List.mem_map]
        exact ⟨(k, v), h2, hk.symm⟩
      · rw [if_neg hk]
        exact ih h.2 h2

/-!
The emitted document extracts back to the emitted rule groups, and its
content is absorbed in the state it was emitted from.
-/

theorem extractGroups_emit (s : MergedConfig) :
    extractGroups (emit s) =
      s.relOrder.map fun r => ⟨none, r, emitBlocks s r⟩ := by
  unfold extractGroups emit eventFilteringChildren
  simp only [List.filterMap_cons, List.filterMap_nil, List.flatten, List.append_nil]
  induction s.relOrder with
  | nil => rfl
  | cons r rest ih => simpa using ih

theorem absorbed_extract_emit {s : MergedConfig}
    (hnd : (s.rules.map Prod.fst).Nodup) :
    Absorbed (extractGroups (emit s)) s := by
  rw [extractGroups_emit]
  intro g hg b hb
  rw [List.mem_map] at hg
  obtain ⟨r, hr, hgr⟩ := hg
  subst hgr
  have hbm : b ∈ emitBlocks s r := hb
  unfold emitBlocks at hbm
  rw [List.mem_filterMap] at hbm
  obtain ⟨p, hp, hpb⟩ := hbm
  by_cases hrel : hasRel s.rels p.1 r = true
  · rw [if_pos hrel] at hpb
    cases Option.some.inj hpb
    refine ⟨containsIffMem.mpr hr, ?_, ?_⟩
    · show hasRel s.rels ⟨p.1.kind, p.1.pol⟩ r = true
      exact hrel
    · intro e he
      show hasRuleTuple s.rules ⟨p.1.kind, p.1.pol⟩ e = true
      have hlk : lookupRules s.rules ⟨p.1.kind, p.1.pol⟩ = p.2 :=
        lookupRules_mem hnd (show (p.1, p.2) ∈ s.rules from hp)
      unfold hasRuleTuple
      rw [hlk, List.any_eq_true]
      exact ⟨e, he, sameTuple_refl e⟩
  · rw [if_neg hrel] at hpb
    cases hpb

/-!
Validity of the emitted document.
-/

theorem validate_emit {s : MergedConfig} (h : s.relOrder ≠ []) :
    validate_config (emit s) = .ok () := by
  obtain ⟨r, rest, hrs⟩ := List.exists_cons_of_ne_nil h
  unfold validate_config emit eventFilteringChildren
  rw [hrs]
  simp [TopChild.isEventFiltering, TopChild.isLooseEventType,
    FilterChild.isLooseEventType, FilterChild.isRuleGroup, List.any_map,
    Function.comp]

/-!
Nonemptiness of the observed relation order.
-/

theorem relOrder_ne_nil_foldBlock (r : GroupRelation) (s : MergedConfig)
    (b : EventTypeBlock) : (foldBlock r s b).relOrder ≠ [] :=
  insertRel_ne_nil s.relOrder r

theorem relOrder_ne_nil_pres_foldBlock (r : GroupRelation) (b : EventTypeBlock)
    {s : MergedConfig} (_ : s.relOrder ≠ []) : (foldBlock r s b).relOrder ≠ [] :=
  relOrder_ne_nil_foldBlock r s b

theorem relOrder_ne_nil_foldGroup {g : RuleGroup} (hb : g.blocks ≠ [])
    (s : MergedConfig) : (foldGroup s g).relOrder ≠ [] := by
  obtain ⟨b, bs, hbs⟩ := List.exists_cons_of_ne_nil hb
  show (g.blocks.foldl (foldBlock g.groupRelation) s).relOrder ≠ []
  rw [hbs, List.foldl_cons]
  exact foldlPreserve (fun s' => s'.relOrder ≠ []) (foldBlock g.groupRelation)
    (fun _ b' hh => relOrder_ne_nil_pres_foldBlock _ b' hh) bs _
    (relOrder_ne_nil_foldBlock _ s b)

theorem relOrder_ne_nil_pres_foldGroup (g : RuleGroup) {s : MergedConfig}
    (h : s.relOrder ≠ []) : (foldGroup s g).relOrder ≠ [] :=
  foldlPreserve (fun s' => s'.relOrder ≠ []) (foldBlock g.groupRelation)
    (fun _ b' hh => relOrder_ne_nil_pres_foldBlock _ b' hh) g.blocks s h

theorem relOrder_ne_nil_pres_foldFragment (f : List RuleGroup) {s : MergedConfig}
    (h : s.relOrder ≠ []) : (foldFragment s f).relOrder ≠ [] :=
  foldlPreserve (fun s' => s'.relOrder ≠ []) foldGroup
    (fun _ g hh => relOrder_ne_nil_pres_foldGroup g hh) f s h

theorem relOrder_ne_nil_foldFragment {f : List RuleGroup} {g : RuleGroup}
    (hg : g ∈ f) (hb : g.blocks ≠ []) (s : MergedConfig) :
    (foldFragment s f).relOrder ≠ [] :=
  foldlAttain (fun s' => s'.relOrder ≠ []) foldGroup
    (fun _ g' hh => relOrder_ne_nil_pres_foldGroup g' hh) g
    (fun s' => relOrder_ne_nil_foldGroup hb s') f hg s

theorem relOrder_ne_nil_mergeFold {fs : List (List RuleGroup)}
    {f : List RuleGroup} {g : RuleGroup} (hf : f ∈ fs) (hg : g ∈ f)
    (hb : g.blocks ≠ []) : (mergeFold fs).relOrder ≠ [] :=
  foldlAttain (fun s' => s'.relOrder ≠ []) foldFragment
    (fun _ f' hh => relOrder_ne_nil_pres_foldFragment f' hh) f
    (fun s' => relOrder_ne_nil_foldFragment hg hb s') fs hf MergedConfig.empty

/-- Scanning all-valid documents finds no invalid one. -/
theorem findInvalid_none :
    ∀ (docs : List ConfigDocument), (∀ d ∈ docs, validate_config d = .ok ()) →
      ∀ i : Nat, findInvalid i docs = none := by
  intro docs
  induction docs with
  | nil => intro _ i; rfl
  | cons d rest ih =>
    intro h i
    unfold findInvalid
    rw [h d (by simp)]
    exact ih (fun d' hd' => h d' (by simp [hd'])) (i + 1)

/-!
Claims C1 to C4: the merge engine.  All engine definitions are modelled
from the spec, since the crate sources are not part of this repository.
-/

/-- C1, counterexample: a fragment whose only rule group carries no
event-type block passes validate_config in isolation, yet merging the
one-fragment set containing it does not produce an output passing the
Validator — the accumulated state records no relation value, emission
produces an EventFiltering element with no RuleGroup, and the driver
reports the post-merge validation failure. -/
theorem C1_counterexample :
    validate_config emptyGroupDoc = .ok () ∧
    merge_configs [emptyGroupDoc] =
      .error (.mergeProducedInvalidOutput .noRuleGroupInEventFiltering) :=
  ⟨rfl, rfl⟩

/-- C1 (amended): for every set of individually valid fragment documents
that together contribute at least one event-type block, merge_configs
succeeds and its output document passes validate_config. -/
theorem C1_post_merge_validity (docs : List ConfigDocument)
    (hval : ∀ d ∈ docs, validate_config d = .ok ())
    (hblock : ∃ d ∈ docs, ∃ g ∈ extractGroups d, g.blocks ≠ []) :
    merge_configs docs = .ok (emit (mergeFold (docs.map extractGroups))) ∧
    validate_config (emit (mergeFold (docs.map extractGroups))) = .ok () := by
  obtain ⟨d, hd, g, hg, hb⟩ := hblock
  have hne : (mergeFold (docs.map extractGroups)).relOrder ≠ [] :=
    relOrder_ne_nil_mergeFold (List.mem_map_of_mem extractGroups hd) hg hb
  have hv := validate_emit hne
  have hemp : docs.isEmpty = false := by
    cases docs with
    | nil => cases hd
    | cons a l => rfl
  refine ⟨?_, hv⟩
  unfold merge_configs
  rw [hemp, findInvalid_none docs hval 0, hv]
  rfl

/-- C1 witness: the amended theorem applied to the singleton set holding
the sample valid document. -/
theorem C1_post_merge_validity_witness :
    merge_configs [sampleDoc] = .ok (emit (mergeFold ([sampleDoc].map extractGroups))) ∧
    validate_config (emit (mergeFold ([sampleDoc].map extractGroups))) = .ok () :=
  C1_post_merge_validity [sampleDoc] (by decide) (by decide)

/-- C2: merging two fragments that record different groupRelation values
for the same (event kind, polarity) key yields a document with exactly two
RuleGroup elements, one per distinct relation value, in first-observed
order — never a single group blending both relations. -/
theorem C2_relation_conflict (l1 l2 : Option String) (r1 r2 : GroupRelation)
    (hr : r1 ≠ r2) (k : EventKind) (pol : Polarity) (rs1 rs2 : List RuleEntry) :
    (extractGroups (emit (mergeFold
        [[⟨l1, r1, [⟨k, pol, rs1⟩]⟩], [⟨l2, r2, [⟨k, pol, rs2⟩]⟩]]))).map
        RuleGroup.groupRelation = [r1, r2] ∧
    (extractGroups (emit (mergeFold
        [[⟨l1, r1, [⟨k, pol, rs1⟩]⟩], [⟨l2, r2, [⟨k, pol, rs2⟩]⟩]]))).length = 2 := by
  have hco : ([r1].contains r2) = false := by
    rw [Bool.eq_false_iff]
    intro hc
    have hm := containsIffMem.mp hc
    simp only [List.mem_singleton] at hm
    exact hr hm.symm
  have hro : (mergeFold
      [[⟨l1, r1, [⟨k, pol, rs1⟩]⟩], [⟨l2, r2, [⟨k, pol, rs2⟩]⟩]]).relOrder = [r1, r2] := by
    show insertRel (insertRel ([] : List GroupRelation) r1) r2 = [r1, r2]
    have h1 : insertRel ([] : List GroupRelation) r1 = [r1] := rfl
    rw [h1]
    unfold insertRel
    rw [hco]
    simp
  rw [extractGroups_emit, hro]
  exact ⟨by simp, by simp⟩

/-- C2 witness: the conflict theorem applied to concrete or/and fragments
over the process-creation include key. -/
theorem C2_relation_conflict_witness :
    (extractGroups (emit (mergeFold
        [[⟨none, .orRel, [⟨.processCreate, .incl, [sampleEntry]⟩]⟩],
         [⟨none, .andRel, [⟨.processCreate, .incl, [sampleEntry]⟩]⟩]]))).map
        RuleGroup.groupRelation = [.orRel, .andRel] ∧
    (extractGroups (emit (mergeFold
        [[⟨none, .orRel, [⟨.processCreate, .incl, [sampleEntry]⟩]⟩],
         [⟨none, .andRel, [⟨.processCreate, .incl, [sampleEntry]⟩]⟩]]))).length = 2 :=
  C2_relation_conflict none none .orRel .andRel (by decide) .processCreate .incl
    [sampleEntry] [sampleEntry]

/-- C3: the merge fold deduplicates and is idempotent: an entry whose
(field, operator, value) tuple is already recorded under a key is dropped
(addRule leaves the table unchanged); merging the same fragment set twice
equals merging it once; and folding the extracted merge output together
with the original fragment set leaves the accumulator — hence the per-key
retained rule multisets — unchanged. -/
theorem C3_idempotent_dedup (fs : List (List RuleGroup)) :
    (∀ (rs : List (Key × List RuleEntry)) (k : Key) (e : RuleEntry),
        hasRuleTuple rs k e = true → addRule rs k e = rs) ∧
    mergeFold (fs ++ fs) = mergeFold fs ∧
    List.foldl foldFragment (mergeFold fs)
        (extractGroups (emit (mergeFold fs)) :: fs) = mergeFold fs := by
  refine ⟨fun rs k e h => addRule_absorbed h, ?_, ?_⟩
  · show (fs ++ fs).foldl foldFragment MergedConfig.empty = mergeFold fs
    rw [List.foldl_append]
    exact foldl_foldFragment_id fs fun f hf => absorbed_mergeFold hf
  · rw [List.foldl_cons,
      foldFragment_id (absorbed_extract_emit (rules_keys_nodup_mergeFold fs))]
    exact foldl_foldFragment_id fs fun f hf => absorbed_mergeFold hf

/-- C3 witness: idempotence evaluated on the singleton fragment set
extracted from the sample document. -/
theorem C3_idempotent_dedup_witness :
    mergeFold ([extractGroups sampleDoc] ++ [extractGroups sampleDoc]) =
      mergeFold [extractGroups sampleDoc] :=
  (C3_idempotent_dedup [extractGroups sampleDoc]).2.1

/-- C4: a configuration violating each of the three structural invariants
makes validate_config return the corresponding error, and a merge over a
fragment set containing such a file fails, identifying the violated rule
and the offending file index. -/
theorem C4_invalidity_propagation :
    validate_config violRulesOutside = .error .rulesOutsideEventFiltering ∧
    validate_config violEventTypeOutside = .error .eventTypeOutsideRuleGroup ∧
    validate_config violNoRuleGroup = .error .noRuleGroupInEventFiltering ∧
    merge_configs [sampleDoc, violRulesOutside] =
      .error (.invalidFragment 1 .rulesOutsideEventFiltering) ∧
    merge_configs [sampleDoc, violEventTypeOutside] =
      .error (.invalidFragment 1 .eventTypeOutsideRuleGroup) ∧
    merge_configs [sampleDoc, violNoRuleGroup] =
      .error (.invalidFragment 1 .noRuleGroupInEventFiltering) :=
  ⟨rfl, rfl, rfl, rfl, rfl, rfl⟩

/-!
Claims C5 to C10: the CLI layer of src/main.rs.
-/

/-- C5, counterexample: a batch run whose statistics report three failed
files still makes handle_batch_mode return Ok (after logging a warning),
so main exits zero — refuting "the CLI does not report overall success
when errors > 0". -/
theorem C5_counterexample :
    (⟨5, 3⟩ : BatchProcessingStats).errors > 0 ∧
    handle_batch_mode true (.ok ⟨5, 3⟩) = .ok true ∧
    exitCode (handle_batch_mode true (.ok ⟨5, 3⟩)) = 0 :=
  ⟨by decide, rfl, rfl⟩

/-- C5 (amended): when the batch processor returns statistics with
errors > 0, handle_batch_mode only logs a warning (the returned flag is
true) and still returns Ok, so the process exits zero; only an error
returned by the processor itself is propagated and exits non-zero. -/
theorem C5_batch_partial_success (stats : BatchProcessingStats)
    (h : stats.errors > 0) (e : ConversionError) :
    handle_batch_mode true (.ok stats) = .ok true ∧
    exitCode (handle_batch_mode true (.ok stats)) = 0 ∧
    handle_batch_mode true (.error e) = .error e ∧
    exitCode (handle_batch_mode true (.error e)) = 1 := by
  refine ⟨?_, rfl, rfl, rfl⟩
  show Except.ok (decide (stats.errors > 0)) = Except.ok true
  rw [decide_eq_true h]

/-- C5 witness: the amended theorem evaluated on statistics with one
error and on a concrete processor failure. -/
theorem C5_batch_partial_success_witness :
    handle_batch_mode true (.ok ⟨2, 1⟩) = .ok true ∧
    exitCode (handle_batch_mode true (.ok ⟨2, 1⟩)) = 0 ∧
    handle_batch_mode true (.error (.xmlParse "boom")) = .error (.xmlParse "boom") ∧
    exitCode (handle_batch_mode true (.error (.xmlParse "boom"))) = 1 :=
  C5_batch_partial_success ⟨2, 1⟩ (by decide) (.xmlParse "boom")

/-- C6: main exits zero exactly when try_main returns Ok and one exactly
when it returns an error; a missing input path exits non-zero; and
try_main propagates the selected handler's error unchanged (merge mode,
batch mode via flag or directory input, and single-file mode). -/
theorem C6_error_propagation_exit (inputIsDir mergeFlag batchFlag : Bool)
    (mr : Except ConversionError MergeInvocation)
    (br : Except ConversionError Bool)
    (sr : Except ConversionError Unit) :
    (∀ r : Except ConversionError Unit, exitCode r = 0 ↔ ∃ u, r = .ok u) ∧
    (∀ r : Except ConversionError Unit, exitCode r = 1 ↔ ∃ e, r = .error e) ∧
    exitCode (try_main false inputIsDir mergeFlag batchFlag mr br sr) = 1 ∧
    (∀ e, mr = .error e →
      try_main true inputIsDir true batchFlag mr br sr = .error e) ∧
    (∀ e, br = .error e →
      try_main true inputIsDir false true mr br sr = .error e ∧
      try_main true true false batchFlag mr br sr = .error e) ∧
    (∀ e, sr = .error e →
      try_main true false false false mr br sr = .error e) := by
  refine ⟨?_, ?_, rfl, ?_, ?_, ?_⟩
  · intro r; cases r <;> simp [exitCode]
  · intro r; cases r <;> simp [exitCode]
  · intro e he
    unfold try_main
    rw [he]
    rfl
  · intro e he
    constructor
    · unfold try_main
      rw [he]
      rfl
    · unfold try_main
      rw [he]
      cases batchFlag <;> rfl
  · intro e he
    unfold try_main
    rw [he]
    rfl

/-- C6 witness: the dispatch theorem instantiated at concrete handler
results, showing the missing-input case exits one. -/
theorem C6_error_propagation_exit_witness :
    exitCode (try_main false false false false
      (.ok ⟨⟨[], none, none⟩, ⟨[], none, none⟩, false⟩) (.ok false) (.ok ())) = 1 :=
  (C6_error_propagation_exit false false false
    (.ok ⟨⟨[], none, none⟩, ⟨[], none, none⟩, false⟩) (.ok false) (.ok ())).2.2.1

/-- C7: the single-file handler maps the five PreprocessError variants to
five pairwise distinct ConversionError variants — io_error, XmlParse,
ValidationError, InvalidFile, ParserError respectively — and a
preprocessing failure surfaces exactly the mapped error. -/
theorem C7_distinct_error_mapping (input : Path) (m1 m2 m3 m4 m5 : String) :
    mapPreprocessError input (.ioError m1) = .ioError input m1 ∧
    mapPreprocessError input (.xmlError m2) = .xmlParse m2 ∧
    mapPreprocessError input (.validationError m3) = .validationError m3 ∧
    mapPreprocessError input (.pathError m4) = .invalidFile m4 ∧
    mapPreprocessError input (.parserError m5) = .parserError m5 ∧
    ([mapPreprocessError input (.ioError m1), mapPreprocessError input (.xmlError m2),
      mapPreprocessError input (.validationError m3),
      mapPreprocessError input (.pathError m4),
      mapPreprocessError input (.parserError m5)].map ConversionError.ctorIdx).Nodup ∧
    (∀ (env : SingleFileEnv) (e : PreprocessError) (cr : Except ConversionError Unit),
      env.preprocessResult = .error e →
      handle_single_file false input env cr = .error (mapPreprocessError input e)) := by
  refine ⟨rfl, rfl, rfl, rfl, rfl,
    by simp [mapPreprocessError, ConversionError.ctorIdx], ?_⟩
  intro env e cr he
  unfold handle_single_file
  rw [he]
  rfl

/-- C7 witness: the mapping evaluated at a concrete path-resolution
failure. -/
theorem C7_distinct_error_mapping_witness :
    mapPreprocessError ⟨[], some "conf", some "xml"⟩ (.pathError "p") = .invalidFile "p" :=
  (C7_distinct_error_mapping ⟨[], some "conf", some "xml"⟩ "a" "b" "c" "p" "q").2.2.2.1

/-- C8: without skip_preprocessing, the source handed to convert_file is
the temporary file (in the fresh temporary directory, named after the
input file) holding the preprocess_config output, never the raw input;
with skip_preprocessing, convert_file is applied to the raw input path. -/
theorem C8_preprocessed_conversion (input : Path) (env : SingleFileEnv)
    (content : String) (h : env.preprocessResult = .ok content) :
    singleFileConvertSource false input env =
      some (.preprocessedTemp
        (Path.join env.tempDir (input.stem.getD "") input.ext) content) ∧
    (∀ p, singleFileConvertSource false input env ≠ some (.rawInput p)) ∧
    singleFileConvertSource true input env = some (.rawInput input) := by
  refine ⟨?_, ?_, rfl⟩
  · unfold singleFileConvertSource
    rw [h]
    rfl
  · intro p
    unfold singleFileConvertSource
    rw [h]
    simp

/-- C8 witness: the conversion-source theorem evaluated on a concrete
environment whose preprocessing succeeded. -/
theorem C8_preprocessed_conversion_witness :
    singleFileConvertSource false ⟨["in"], some "conf", some "xml"⟩
        ⟨.ok "normalized", ⟨["tmp"], some "t", none⟩⟩ =
      some (.preprocessedTemp
        (Path.join (⟨["tmp"], some "t", none⟩ : Path) "conf" (some "xml")) "normalized") ∧
    (∀ p, singleFileConvertSource false ⟨["in"], some "conf", some "xml"⟩
        ⟨.ok "normalized", ⟨["tmp"], some "t", none⟩⟩ ≠ some (.rawInput p)) ∧
    singleFileConvertSource true ⟨["in"], some "conf", some "xml"⟩
        ⟨.ok "normalized", ⟨["tmp"], some "t", none⟩⟩ =
      some (.rawInput ⟨["in"], some "conf", some "xml"⟩) :=
  C8_preprocessed_conversion ⟨["in"], some "conf", some "xml"⟩
    ⟨.ok "normalized", ⟨["tmp"], some "t", none⟩⟩ "normalized" rfl

/-- C9: for a single-file conversion with no explicit output path, the
default output path's extension is json if and only if the input file's
extension is xml, and is xml otherwise. -/
theorem C9_default_output_direction (p : Path) (hp : p.stem.isSome) :
    ((defaultSingleOutput p).extension = some "json" ↔ p.extension = some "xml") ∧
    (p.extension ≠ some "xml" → (defaultSingleOutput p).extension = some "xml") := by
  obtain ⟨dir, stem, ext⟩ := p
  cases stem with
  | none => simp at hp
  | some st =>
    by_cases hx : ext = some "xml"
    · subst hx
      simp [defaultSingleOutput, Path.setExtension, Path.extension]
    · constructor
      · simp [defaultSingleOutput, Path.setExtension, Path.extension, hx]
      · intro _
        simp [defaultSingleOutput, Path.setExtension, Path.extension, hx]

/-- C9 witness: the direction rule evaluated on an xml input and on a
json input. -/
theorem C9_default_output_direction_witness :
    (((defaultSingleOutput ⟨[], some "conf", some "xml"⟩).extension = some "json" ↔
        (⟨[], some "conf", some "xml"⟩ : Path).extension = some "xml") ∧
      ((⟨[], some "conf", some "xml"⟩ : Path).extension ≠ some "xml" →
        (defaultSingleOutput ⟨[], some "conf", some "xml"⟩).extension = some "xml")) ∧
    (((defaultSingleOutput ⟨[], some "conf", some "json"⟩).extension = some "json" ↔
        (⟨[], some "conf", some "json"⟩ : Path).extension = some "xml") ∧
      ((⟨[], some "conf", some "json"⟩ : Path).extension ≠ some "xml" →
        (defaultSingleOutput ⟨[], some "conf", some "json"⟩).extension = some "xml")) :=
  ⟨C9_default_output_direction ⟨[], some "conf", some "xml"⟩ (by decide),
   C9_default_output_direction ⟨[], some "conf", some "json"⟩ (by decide)⟩

/-- C10: a merge-mode invocation on a directory with no explicit output
path calls merge_configs with the output defaulted to merged.xml inside
the input directory, passing the input directory and the recursive flag
through unchanged. -/
theorem C10_merge_default_output (input : Path) (recursive : Bool) :
    handle_merge_mode input true none recursive =
      .ok ⟨input, Path.join input "merged" (some "xml"), recursive⟩ := rfl

end SysmonHelper
